import Mathlib

/-!
# ddsim: sampling core and noise-aware simulator construction

A shallow embedding of

* `include/Simulator.hpp` (`Simulator`: seeding, `MeasureAll`,
  `MeasureAllNonCollapsing`, `getSeed`, `toBinaryString`),
* `include/StochasticNoiseSimulator.hpp` (constructors),
* `include/DeterministicNoiseSimulator.hpp` (constructors,
  `measureAllNonCollapsing`, `countNodesFromRoot`).

The decision-diagram engine (`dd::Package`, edges), the C++ standard library
(`std::mt19937_64`, `std::thread::hardware_concurrency`) and the arithmetic of
`double` are external to these headers.  They enter every definition as
explicit parameters, so each theorem holds for every engine and for every
interpretation of `double` arithmetic, IEEE-754 included.
-/

namespace DDSim

/-! ## External collaborators -/

/-- Arithmetic of the C++ type `double`, kept abstract.
`lit m e` is the `double` denoted by the decimal literal `m · 10^(-e)`
(`0.001` is `lit 1 3`, `2` is `lit 2 0`), `mul` is `operator*`,
`lt` is `operator<` and `le` is `operator<=`. -/
structure DoubleOps (D : Type) where
  lit : Nat → Nat → D
  mul : D → D → D
  lt : D → D → Bool
  le : D → D → Bool

/-- Result of one call of `dd::Package::measureAll(rootEdge, collapse, mt, epsilon)`:
the returned bitstring together with the three objects the call receives by
reference (the package itself, the edge and the generator). -/
structure MeasureResult (P E G : Type) where
  outcome : String
  dd : P
  edge : E
  mt : G

/-- The parts of the DD engine and of `<random>` that `Simulator` calls. -/
structure Engine (P E G D : Type) where
  /-- `std::make_unique<dd::Package<Config>>()` -/
  newPackage : P
  /-- `dd::vEdge{}` -/
  emptyEdge : E
  /-- `dd->measureAll(rootEdge, collapse, mt, epsilon)` -/
  measureAll : P → E → Bool → G → D → MeasureResult P E G
  /-- `mt.seed(value)` on a `std::mt19937_64` -/
  seedValue : Nat → G
  /-- `mt.seed(seeds)` with a `std::seed_seq` built from the given words -/
  seedSeq : List Nat → G

/-! ## `std::map<std::string, std::size_t>` -/

/-- A `std::map<std::string, std::size_t>`: its entries in key order
(`std::string` compares lexicographically, character by character). -/
abbrev Histogram := List (String × Nat)

/-- `results[m]`: `operator[]` inserts the key with a value-initialised count
(`0`) when it is absent, and leaves the map alone otherwise. -/
def Histogram.subscript : Histogram → String → Histogram
  | [], m => [(m, 0)]
  | (k, c) :: rest, m =>
    if m = k then (k, c) :: rest
    else if m.data < k.data then (m, 0) :: (k, c) :: rest
    else (k, c) :: Histogram.subscript rest m

/-- `++` applied to the `std::size_t` stored under key `m` (wrapping at `2^64`). -/
def Histogram.increment : Histogram → String → Histogram
  | [], _ => []
  | (k, c) :: rest, m =>
    if m = k then (k, (c + 1) % 2 ^ 64) :: rest
    else (k, c) :: Histogram.increment rest m

/-- Sum of all counts of a histogram. -/
def Histogram.total (h : Histogram) : Nat :=
  (h.map Prod.snd).sum

/-! ## `Simulator` (Simulator.hpp) -/

/-- Data members of `Simulator<Config>`. -/
structure Simulator (P E G D : Type) where
  dd : P
  rootEdge : E
  mt : G
  seed : Nat
  has_fixed_seed : Bool
  epsilon : D

section Simulator

variable {P E G D : Type}

/-- `explicit Simulator(unsigned long long random_seed)`. -/
def Simulator.seeded (ops : DoubleOps D) (eng : Engine P E G D) (random_seed : Nat) :
    Simulator P E G D :=
  { dd := eng.newPackage
    rootEdge := eng.emptyEdge
    mt := eng.seedValue random_seed
    seed := random_seed
    has_fixed_seed := true
    epsilon := ops.lit 1 3 }

/-- `explicit Simulator()`; `random_data` are the words read from
`std::random_device`. -/
def Simulator.unseeded (ops : DoubleOps D) (eng : Engine P E G D) (random_data : List Nat) :
    Simulator P E G D :=
  { dd := eng.newPackage
    rootEdge := eng.emptyEdge
    mt := eng.seedSeq random_data
    seed := 0
    has_fixed_seed := false
    epsilon := ops.lit 1 3 }

/-- `std::string MeasureAll(bool collapse = false)`: the returned string and
the simulator after the call. -/
def Simulator.MeasureAll (eng : Engine P E G D) (sim : Simulator P E G D) (collapse : Bool) :
    String × Simulator P E G D :=
  let r := eng.measureAll sim.dd sim.rootEdge collapse sim.mt sim.epsilon
  (r.outcome, { sim with dd := r.dd, rootEdge := r.edge, mt := r.mt })

/-- The `for` loop of `MeasureAllNonCollapsing`, by the number of iterations
still to run. -/
def Simulator.measureLoop (eng : Engine P E G D) :
    Nat → Simulator P E G D → Histogram → Histogram × Simulator P E G D
  | 0, sim, results => (results, sim)
  | n + 1, sim, results =>
    let (m, sim1) := Simulator.MeasureAll eng sim false
    Simulator.measureLoop eng n sim1 ((results.subscript m).increment m)

/-- `std::map<std::string, std::size_t> MeasureAllNonCollapsing(unsigned int shots)`. -/
def Simulator.MeasureAllNonCollapsing (eng : Engine P E G D) (sim : Simulator P E G D)
    (shots : Nat) : Histogram × Simulator P E G D :=
  Simulator.measureLoop eng shots sim []

/-- `std::to_string` on an unsigned integer: its decimal digits. -/
def to_string (n : Nat) : String :=
  String.mk (Nat.toDigits 10 n)

/-- `std::string getSeed() const`. -/
def Simulator.getSeed (sim : Simulator P E G D) : String :=
  if sim.has_fixed_seed then to_string sim.seed else "-1"

end Simulator

/-! ## `Simulator::toBinaryString` -/

/-- The expression `1 << j` of `toBinaryString`: the literal `1` is an `int`
(32 bits), so the shift is a 32-bit signed one.  For `j < 31` it is `2^j`; for
`j = 31` the bit pattern `0x80000000` read as an `int` is `-2^31`; for
`j ≥ 32` the shift count reaches the width of `int` and the expression has no
defined value (`none`). -/
def shiftLeftOne (j : Nat) : Option Int :=
  if j < 31 then some (2 ^ j)
  else if j = 31 then some (-(2 ^ 31))
  else none

/-- Conversion of an `int` to `std::size_t` (64 bits) by the usual arithmetic
conversions of `m & (1 << j)`: the value modulo `2^64`. -/
def intToSizeT (i : Int) : Nat :=
  (i % 2 ^ 64).toNat

/-- The `for` loop of `toBinaryString`, by the number of iterations still to
run; `j` is the loop counter and `binary` the string built so far. -/
def toBinaryStringLoop (m : Nat) : Nat → Nat → List Char → Option (List Char)
  | 0, _, binary => some binary
  | remaining + 1, j, binary =>
    match shiftLeftOne j with
    | none => none
    | some mask =>
      if m &&& intToSizeT mask ≠ 0 then
        toBinaryStringLoop m remaining (j + 1) (binary.set j '1')
      else
        toBinaryStringLoop m remaining (j + 1) binary

/-- `static std::string toBinaryString(std::size_t m, dd::QubitCount nq)`;
`none` when the loop evaluates a shift without defined value. -/
def toBinaryString (m nq : Nat) : Option String :=
  (toBinaryStringLoop m nq 0 (List.replicate nq '0')).map String.mk

/-! ## The draws behind a histogram -/

/-- The count `std::map::find` reaches for a key: that of its first entry in
the list, `none` when the key is absent. -/
def Histogram.get : Histogram → String → Option Nat
  | [], _ => none
  | (k, c) :: rest, m => if m = k then some c else Histogram.get rest m

/-- The entries are in strictly increasing key order, as `std::map` keeps them. -/
def Histogram.Sorted (h : Histogram) : Prop :=
  h.Pairwise (fun a b => a.1.data < b.1.data)

/-- The histogram `h` tallies the list of draws `ds`: it is in key order, and
it stores under every key the number of times the key occurs in `ds`, with no
entry for a key that does not occur. -/
def Histogram.Tallies (h : Histogram) (ds : List String) : Prop :=
  h.Sorted ∧ ∀ k, h.get k = if ds.count k = 0 then none else some (ds.count k)

/-- The bitstrings returned, in order, by the `n` calls `MeasureAll(false)`
that the loop of `MeasureAllNonCollapsing` makes from the state `sim`. -/
def Simulator.draws {P E G D : Type} (eng : Engine P E G D) :
    Nat → Simulator P E G D → List String
  | 0, _ => []
  | n + 1, sim =>
    (Simulator.MeasureAll eng sim false).1
      :: Simulator.draws eng n (Simulator.MeasureAll eng sim false).2

/-! ## Noise-aware simulators: shared pieces -/

/-- The `std::runtime_error` that ends a construction: thrown either by
`initializeNoiseEffects` or by `sanityCheckOfNoiseProbabilities`. -/
inductive ConstructionError where
  | unknownNoiseOperation
  | faultyProbabilities
  deriving DecidableEq

/-- The two static functions that `StochasticNoiseSimulator.hpp` declares and
both simulators call during construction; their bodies are not part of the
headers.  `initializeNoiseEffects` yields `none` when it throws, and
`sanityCheckOfNoiseProbabilities` yields `false` when it throws. -/
structure NoiseHelpers (D N : Type) where
  initializeNoiseEffects : String → Option (List N)
  sanityCheckOfNoiseProbabilities : D → D → D → Bool

/-- Modelled from the spec: the body of
`StochasticNoiseSimulator::sanityCheckOfNoiseProbabilities`, which the header
only declares.  Section 4.2: construction validates `0 ≤ noiseProbability`,
`0 ≤ ampDampingProb ≤ 1`, and "scaled multi-qubit probabilities must not
exceed 1 — violation fails construction".  The result is `true` when the
triple passes and `false` when the check throws. -/
def sanityCheckOfNoiseProbabilities {D : Type} (ops : DoubleOps D)
    (noiseProbability amplitudeDampingProb multiQubitGateFactor : D) : Bool :=
  ops.le (ops.lit 0 0) noiseProbability
    && ops.le (ops.lit 0 0) amplitudeDampingProb
    && ops.le amplitudeDampingProb (ops.lit 1 0)
    && !(ops.lt (ops.lit 1 0) (ops.mul noiseProbability multiQubitGateFactor))
    && !(ops.lt (ops.lit 1 0) (ops.mul amplitudeDampingProb multiQubitGateFactor))

/-- Outcome of a construction as far as validation is concerned: the error
thrown, or `none` when an object is produced. -/
def validationOutcome {α : Type} : Except ConstructionError α → Option ConstructionError
  | .ok _ => none
  | .error err => some err

/-! ## `StochasticNoiseSimulator` (StochasticNoiseSimulator.hpp) -/

/-- Data members of `StochasticNoiseSimulator`; `base` is the `Simulator`
sub-object reached through `CircuitSimulator`. -/
structure StochasticNoiseSimulator (P E G D N : Type) where
  base : Simulator P E G D
  classicalMeasurementsMaps : List Histogram
  finalClassicalMeasurementsMap : Histogram
  noiseProbability : D
  amplitudeDampingProb : D
  multiQubitGateFactor : D
  stochasticRuns : Nat
  maxInstances : Nat
  noiseEffects : List N
  stochRunTime : D

section Stochastic

variable {P E G D N : Type}

/-- Member initialisers and body shared by the two non-delegating
constructors, after the base sub-object has been built.
`hardware_concurrency` is the value of `std::thread::hardware_concurrency()`
(an `unsigned int`, the same at both places the initialiser reads it); the
subtraction is the 32-bit unsigned one. -/
def StochasticNoiseSimulator.init (ops : DoubleOps D) (hlp : NoiseHelpers D N)
    (hardware_concurrency : Nat) (base : Simulator P E G D)
    (noiseEffects_ : String) (noiseProbability_ : D) (ampDampingProbability_ : Option D)
    (multiQubitGateFactor_ : D) :
    Except ConstructionError (StochasticNoiseSimulator P E G D N) :=
  let noiseProbability := noiseProbability_
  let amplitudeDampingProb :=
    match ampDampingProbability_ with
    | some value => value
    | none => ops.mul noiseProbability_ (ops.lit 2 0)
  let multiQubitGateFactor := multiQubitGateFactor_
  let maxInstances :=
    if hardware_concurrency > 4 then (hardware_concurrency + 2 ^ 32 - 4) % 2 ^ 32 else 1
  match hlp.initializeNoiseEffects noiseEffects_ with
  | none => .error .unknownNoiseOperation
  | some noiseEffects =>
    if hlp.sanityCheckOfNoiseProbabilities noiseProbability_ amplitudeDampingProb
        multiQubitGateFactor_ then
      .ok { base := base
            classicalMeasurementsMaps := []
            finalClassicalMeasurementsMap := []
            noiseProbability := noiseProbability
            amplitudeDampingProb := amplitudeDampingProb
            multiQubitGateFactor := multiQubitGateFactor
            stochasticRuns := 0
            maxInstances := maxInstances
            noiseEffects := noiseEffects
            stochRunTime := ops.lit 0 0 }
    else .error .faultyProbabilities

/-- `StochasticNoiseSimulator(qc_, approximationInfo_, noiseEffects_,
noiseProbability_, ampDampingProbability_, multiQubitGateFactor_)`. -/
def StochasticNoiseSimulator.ctor (ops : DoubleOps D) (eng : Engine P E G D)
    (hlp : NoiseHelpers D N) (hardware_concurrency : Nat) (random_data : List Nat)
    (noiseEffects_ : String) (noiseProbability_ : D) (ampDampingProbability_ : Option D)
    (multiQubitGateFactor_ : D) :
    Except ConstructionError (StochasticNoiseSimulator P E G D N) :=
  StochasticNoiseSimulator.init ops hlp hardware_concurrency
    (Simulator.unseeded ops eng random_data)
    noiseEffects_ noiseProbability_ ampDampingProbability_ multiQubitGateFactor_

/-- `explicit StochasticNoiseSimulator(qc_, noiseEffects_, ...)`: delegates to
the constructor above with a default `ApproximationInfo`. -/
def StochasticNoiseSimulator.ctorDelegating (ops : DoubleOps D) (eng : Engine P E G D)
    (hlp : NoiseHelpers D N) (hardware_concurrency : Nat) (random_data : List Nat)
    (noiseEffects_ : String) (noiseProbability_ : D) (ampDampingProbability_ : Option D)
    (multiQubitGateFactor_ : D) :
    Except ConstructionError (StochasticNoiseSimulator P E G D N) :=
  StochasticNoiseSimulator.ctor ops eng hlp hardware_concurrency random_data
    noiseEffects_ noiseProbability_ ampDampingProbability_ multiQubitGateFactor_

/-- `StochasticNoiseSimulator(qc_, approximationInfo_, seed_, noiseEffects_, ...)`. -/
def StochasticNoiseSimulator.ctorSeeded (ops : DoubleOps D) (eng : Engine P E G D)
    (hlp : NoiseHelpers D N) (hardware_concurrency : Nat) (seed_ : Nat)
    (noiseEffects_ : String) (noiseProbability_ : D) (ampDampingProbability_ : Option D)
    (multiQubitGateFactor_ : D) :
    Except ConstructionError (StochasticNoiseSimulator P E G D N) :=
  StochasticNoiseSimulator.init ops hlp hardware_concurrency
    (Simulator.seeded ops eng seed_)
    noiseEffects_ noiseProbability_ ampDampingProbability_ multiQubitGateFactor_

/-- The object `sim` is what one of the three constructors produces from the
noise arguments `(noiseEffects_, noiseProbability_, ampDampingProbability_,
multiQubitGateFactor_)` on a machine reporting `hardware_concurrency`. -/
def StochasticNoiseSimulator.Constructed (ops : DoubleOps D) (eng : Engine P E G D)
    (hlp : NoiseHelpers D N) (hardware_concurrency : Nat)
    (noiseEffects_ : String) (noiseProbability_ : D) (ampDampingProbability_ : Option D)
    (multiQubitGateFactor_ : D) (sim : StochasticNoiseSimulator P E G D N) : Prop :=
  (∃ random_data, StochasticNoiseSimulator.ctor ops eng hlp hardware_concurrency random_data
      noiseEffects_ noiseProbability_ ampDampingProbability_ multiQubitGateFactor_ = .ok sim)
  ∨ (∃ random_data, StochasticNoiseSimulator.ctorDelegating ops eng hlp hardware_concurrency
      random_data noiseEffects_ noiseProbability_ ampDampingProbability_ multiQubitGateFactor_
        = .ok sim)
  ∨ (∃ seed_, StochasticNoiseSimulator.ctorSeeded ops eng hlp hardware_concurrency seed_
      noiseEffects_ noiseProbability_ ampDampingProbability_ multiQubitGateFactor_ = .ok sim)

end Stochastic

/-! ## `DeterministicNoiseSimulator` (DeterministicNoiseSimulator.hpp) -/

/-- The density-matrix side of the DD engine: `qc::DensityMatrixDD` edges and
the operations `DeterministicNoiseSimulator.hpp` performs on them. -/
structure DensityEngine (DE D : Type) where
  /-- `qc::DensityMatrixDD{}` -/
  emptyEdge : DE
  /-- `qc::DensityMatrixDD::alignDensityEdge(e)` -/
  alignDensityEdge : DE → DE
  /-- `qc::DensityMatrixDD::setDensityMatrixTrue(e)` -/
  setDensityMatrixTrue : DE → DE
  /-- `e.size()` -/
  size : DE → Nat
  /-- `e.getSparseProbabilityVectorStrKeys(threshold)` -/
  getSparseProbabilityVectorStrKeys : DE → D → List (String × D)

/-- The `dd::DeterministicNoiseFunctionality` member: the arguments its
constructor is bound to. -/
structure DeterministicNoiseFunctionality (P D N : Type) where
  dd : P
  nQubits : Nat
  noiseProbSingleQubit : D
  noiseProbMultiQubit : D
  ampDampingProbSingleQubit : D
  ampDampingProbMultiQubit : D
  noiseEffects : List N

/-- Data members of `DeterministicNoiseSimulator`; `base` is the `Simulator`
sub-object reached through `CircuitSimulator`. -/
structure DeterministicNoiseSimulator (P E G D N DE : Type) where
  base : Simulator P E G D
  rootEdge : DE
  noiseEffects : List N
  noiseProbSingleQubit : D
  ampDampingProbSingleQubit : D
  noiseProbMultiQubit : D
  ampDampingProbMultiQubit : D
  measurementThreshold : D
  deterministicNoiseFunctionality : DeterministicNoiseFunctionality P D N

section Deterministic

variable {P E G D N DE : Type}

/-- Member initialisers and body shared by the two non-delegating
constructors, after the base sub-object has been built.  `nQubits` is the
value of `getNumberOfQubits()` for the circuit handed in. -/
def DeterministicNoiseSimulator.init (ops : DoubleOps D) (deng : DensityEngine DE D)
    (hlp : NoiseHelpers D N) (base : Simulator P E G D) (nQubits : Nat)
    (noiseEffects_ : String) (noiseProbability_ : D) (ampDampingProbability_ : Option D)
    (multiQubitGateFactor_ : D) :
    Except ConstructionError (DeterministicNoiseSimulator P E G D N DE) :=
  match hlp.initializeNoiseEffects noiseEffects_ with
  | none => .error .unknownNoiseOperation
  | some noiseEffects =>
    let noiseProbSingleQubit := noiseProbability_
    let ampDampingProbSingleQubit :=
      match ampDampingProbability_ with
      | some value => value
      | none => ops.mul noiseProbability_ (ops.lit 2 0)
    let noiseProbMultiQubit := ops.mul noiseProbability_ multiQubitGateFactor_
    let ampDampingProbMultiQubit := ops.mul ampDampingProbSingleQubit multiQubitGateFactor_
    if hlp.sanityCheckOfNoiseProbabilities noiseProbability_ ampDampingProbSingleQubit
        multiQubitGateFactor_ then
      .ok { base := base
            rootEdge := deng.emptyEdge
            noiseEffects := noiseEffects
            noiseProbSingleQubit := noiseProbSingleQubit
            ampDampingProbSingleQubit := ampDampingProbSingleQubit
            noiseProbMultiQubit := noiseProbMultiQubit
            ampDampingProbMultiQubit := ampDampingProbMultiQubit
            measurementThreshold := ops.lit 1 2
            deterministicNoiseFunctionality :=
              { dd := base.dd
                nQubits := nQubits
                noiseProbSingleQubit := noiseProbSingleQubit
                noiseProbMultiQubit := noiseProbMultiQubit
                ampDampingProbSingleQubit := ampDampingProbSingleQubit
                ampDampingProbMultiQubit := ampDampingProbMultiQubit
                noiseEffects := noiseEffects } }
    else .error .faultyProbabilities

/-- `DeterministicNoiseSimulator(qc_, approximationInfo_, noiseEffects_,
noiseProbability_, ampDampingProbability_, multiQubitGateFactor_)`. -/
def DeterministicNoiseSimulator.ctor (ops : DoubleOps D) (eng : Engine P E G D)
    (deng : DensityEngine DE D) (hlp : NoiseHelpers D N) (random_data : List Nat)
    (nQubits : Nat) (noiseEffects_ : String) (noiseProbability_ : D)
    (ampDampingProbability_ : Option D) (multiQubitGateFactor_ : D) :
    Except ConstructionError (DeterministicNoiseSimulator P E G D N DE) :=
  DeterministicNoiseSimulator.init ops deng hlp (Simulator.unseeded ops eng random_data)
    nQubits noiseEffects_ noiseProbability_ ampDampingProbability_ multiQubitGateFactor_

/-- `explicit DeterministicNoiseSimulator(qc_, noiseEffects_, ...)`: delegates
to the constructor above with a default `ApproximationInfo`. -/
def DeterministicNoiseSimulator.ctorDelegating (ops : DoubleOps D) (eng : Engine P E G D)
    (deng : DensityEngine DE D) (hlp : NoiseHelpers D N) (random_data : List Nat)
    (nQubits : Nat) (noiseEffects_ : String) (noiseProbability_ : D)
    (ampDampingProbability_ : Option D) (multiQubitGateFactor_ : D) :
    Except ConstructionError (DeterministicNoiseSimulator P E G D N DE) :=
  DeterministicNoiseSimulator.ctor ops eng deng hlp random_data
    nQubits noiseEffects_ noiseProbability_ ampDampingProbability_ multiQubitGateFactor_

/-- `DeterministicNoiseSimulator(qc_, approximationInfo_, seed_, noiseEffects_, ...)`. -/
def DeterministicNoiseSimulator.ctorSeeded (ops : DoubleOps D) (eng : Engine P E G D)
    (deng : DensityEngine DE D) (hlp : NoiseHelpers D N) (seed_ : Nat)
    (nQubits : Nat) (noiseEffects_ : String) (noiseProbability_ : D)
    (ampDampingProbability_ : Option D) (multiQubitGateFactor_ : D) :
    Except ConstructionError (DeterministicNoiseSimulator P E G D N DE) :=
  DeterministicNoiseSimulator.init ops deng hlp (Simulator.seeded ops eng seed_)
    nQubits noiseEffects_ noiseProbability_ ampDampingProbability_ multiQubitGateFactor_

/-- The object `sim` is what one of the three constructors produces from the
noise arguments `(noiseEffects_, noiseProbability_, ampDampingProbability_,
multiQubitGateFactor_)` for a circuit on `nQubits` qubits. -/
def DeterministicNoiseSimulator.Constructed (ops : DoubleOps D) (eng : Engine P E G D)
    (deng : DensityEngine DE D) (hlp : NoiseHelpers D N) (nQubits : Nat)
    (noiseEffects_ : String) (noiseProbability_ : D) (ampDampingProbability_ : Option D)
    (multiQubitGateFactor_ : D) (sim : DeterministicNoiseSimulator P E G D N DE) : Prop :=
  (∃ random_data, DeterministicNoiseSimulator.ctor ops eng deng hlp random_data nQubits
      noiseEffects_ noiseProbability_ ampDampingProbability_ multiQubitGateFactor_ = .ok sim)
  ∨ (∃ random_data, DeterministicNoiseSimulator.ctorDelegating ops eng deng hlp random_data
      nQubits noiseEffects_ noiseProbability_ ampDampingProbability_ multiQubitGateFactor_
        = .ok sim)
  ∨ (∃ seed_, DeterministicNoiseSimulator.ctorSeeded ops eng deng hlp seed_ nQubits
      noiseEffects_ noiseProbability_ ampDampingProbability_ multiQubitGateFactor_ = .ok sim)

/-- The member function `sampleFromProbabilityMap(resultProbabilityMap, shots)`,
declared in the header and defined elsewhere: it returns a histogram and may
change the simulator (its generator). -/
abbrev SampleFromProbabilityMap (P E G D N DE : Type) :=
  DeterministicNoiseSimulator P E G D N DE → List (String × D) → Nat →
    Histogram × DeterministicNoiseSimulator P E G D N DE

/-- `measureAllNonCollapsing(std::size_t shots) override`. -/
def DeterministicNoiseSimulator.measureAllNonCollapsing (deng : DensityEngine DE D)
    (sampleFromProbabilityMap : SampleFromProbabilityMap P E G D N DE)
    (sim : DeterministicNoiseSimulator P E G D N DE) (shots : Nat) :
    Histogram × DeterministicNoiseSimulator P E G D N DE :=
  sampleFromProbabilityMap sim
    (deng.getSparseProbabilityVectorStrKeys sim.rootEdge sim.measurementThreshold) shots

/-- The override of `measureAllNonCollapsing` as section 4.3 words it: extract
the sparse probability vector of the density matrix once, dropping entries
below the fixed threshold `0.01`, then draw `shots` samples from that explicit
distribution. -/
def DeterministicNoiseSimulator.specMeasureAllNonCollapsing (ops : DoubleOps D)
    (deng : DensityEngine DE D)
    (sampleFromProbabilityMap : SampleFromProbabilityMap P E G D N DE)
    (sim : DeterministicNoiseSimulator P E G D N DE) (shots : Nat) :
    Histogram × DeterministicNoiseSimulator P E G D N DE :=
  let distribution := deng.getSparseProbabilityVectorStrKeys sim.rootEdge (ops.lit 1 2)
  sampleFromProbabilityMap sim distribution shots

/-- `countNodesFromRoot() override`: the returned count and the simulator
after the call. -/
def DeterministicNoiseSimulator.countNodesFromRoot (deng : DensityEngine DE D)
    (sim : DeterministicNoiseSimulator P E G D N DE) :
    Nat × DeterministicNoiseSimulator P E G D N DE :=
  let sim1 := { sim with rootEdge := deng.alignDensityEdge sim.rootEdge }
  let tmp := deng.size sim1.rootEdge
  let sim2 := { sim1 with rootEdge := deng.setDensityMatrixTrue sim1.rootEdge }
  (tmp, sim2)

/-- The construction-time validation both simulators share, as sections 4.2
and 4.3 word it: the noise-effect string must parse into a known channel
list, the amplitude-damping probability defaults to twice the single-qubit
probability, and the triple (probability, amplitude-damping probability,
factor) must pass the sanity check. -/
def specValidation (ops : DoubleOps D) (hlp : NoiseHelpers D N)
    (noiseEffects_ : String) (noiseProbability_ : D) (ampDampingProbability_ : Option D)
    (multiQubitGateFactor_ : D) : Option ConstructionError :=
  if (hlp.initializeNoiseEffects noiseEffects_).isNone then
    some .unknownNoiseOperation
  else if hlp.sanityCheckOfNoiseProbabilities noiseProbability_
      (ampDampingProbability_.getD (ops.mul noiseProbability_ (ops.lit 2 0)))
      multiQubitGateFactor_ then
    none
  else some .faultyProbabilities

end Deterministic

/-! ## A small concrete engine, used to instantiate the theorems -/

/-- Fixed-point arithmetic in units of `10^(-6)` as an interpretation of
`DoubleOps`. -/
def fixedOps : DoubleOps Int where
  lit m e := (m : Int) * 10 ^ 6 / 10 ^ e
  mul x y := x * y / 10 ^ 6
  lt x y := decide (x < y)
  le x y := decide (x ≤ y)

/-- A two-outcome engine: the edge is a number and a flag, the generator is a
counter; a draw reports the parity of the counter and advances it, and only a
collapsing draw touches the edge. -/
def toyEngine : Engine Nat (Nat × Bool) Nat Int where
  newPackage := 0
  emptyEdge := (0, false)
  measureAll p e collapse g _ :=
    { outcome := if g % 2 = 0 then "00" else "11"
      dd := p + 1
      edge := if collapse then (e.1 + 1, e.2) else e
      mt := g + 1 }
  seedValue s := s
  seedSeq ws := ws.sum

/-- A density-matrix engine on edges made of a node number and the density
flag: aligning clears the flag, `setDensityMatrixTrue` sets it. -/
def toyDensityEngine : DensityEngine (Nat × Bool) Int where
  emptyEdge := (0, false)
  alignDensityEdge e := (e.1, false)
  setDensityMatrixTrue e := (e.1, true)
  size e := e.1 + 1
  getSparseProbabilityVectorStrKeys e threshold :=
    if threshold < 500000 then [("00", 500000), ("11", 500000)] else [("0", (e.1 : Int))]

/-- Sample helpers: a parser that accepts strings over the letters `A`, `P`,
`D`, `I` and throws on anything else, and the sanity check of the
specification. -/
def toyHelpers : NoiseHelpers Int Char where
  initializeNoiseEffects s :=
    if s.data.all (fun c => c = 'A' || c = 'P' || c = 'D' || c = 'I') then some s.data else none
  sanityCheckOfNoiseProbabilities := sanityCheckOfNoiseProbabilities fixedOps

/-- A stand-in for `sampleFromProbabilityMap`: every shot lands on the first
key of the distribution. -/
def toySample : SampleFromProbabilityMap Nat (Nat × Bool) Nat Int Char (Nat × Bool) :=
  fun sim distribution shots =>
    (match distribution with
      | [] => []
      | (k, _) :: _ => if shots = 0 then [] else [(k, shots)],
     { sim with base := { sim.base with mt := sim.base.mt + shots } })

/-- The deterministic simulator the seeded constructor yields for seed `7`, two
qubits, `"APD"`, probability `0.001`, no amplitude-damping argument and
factor `2` (numbers in units of `10^(-6)`). -/
def toyDeterministic : DeterministicNoiseSimulator Nat (Nat × Bool) Nat Int Char (Nat × Bool) where
  base := Simulator.seeded fixedOps toyEngine 7
  rootEdge := (0, false)
  noiseEffects := ['A', 'P', 'D']
  noiseProbSingleQubit := 1000
  ampDampingProbSingleQubit := 2000
  noiseProbMultiQubit := 2000
  ampDampingProbMultiQubit := 4000
  measurementThreshold := 10000
  deterministicNoiseFunctionality :=
    { dd := 0
      nQubits := 2
      noiseProbSingleQubit := 1000
      noiseProbMultiQubit := 2000
      ampDampingProbSingleQubit := 2000
      ampDampingProbMultiQubit := 4000
      noiseEffects := ['A', 'P', 'D'] }

/-- The stochastic simulator the seeded constructor yields for the same
arguments on a machine with `hardware_concurrency() = 12`. -/
def toyStochastic : StochasticNoiseSimulator Nat (Nat × Bool) Nat Int Char where
  base := Simulator.seeded fixedOps toyEngine 7
  classicalMeasurementsMaps := []
  finalClassicalMeasurementsMap := []
  noiseProbability := 1000
  amplitudeDampingProb := 2000
  multiQubitGateFactor := 2000000
  stochasticRuns := 0
  maxInstances := 8
  noiseEffects := ['A', 'P', 'D']
  stochRunTime := 0

/-- The deterministic simulator of `toyDeterministic` when the amplitude-damping
argument `0` is supplied. -/
def toyDeterministicZero :
    DeterministicNoiseSimulator Nat (Nat × Bool) Nat Int Char (Nat × Bool) :=
  { toyDeterministic with
    ampDampingProbSingleQubit := 0
    ampDampingProbMultiQubit := 0
    deterministicNoiseFunctionality :=
      { toyDeterministic.deterministicNoiseFunctionality with
        ampDampingProbSingleQubit := 0
        ampDampingProbMultiQubit := 0 } }

/-- The stochastic simulator of `toyStochastic` when the amplitude-damping
argument `0` is supplied. -/
def toyStochasticZero : StochasticNoiseSimulator Nat (Nat × Bool) Nat Int Char :=
  { toyStochastic with amplitudeDampingProb := 0 }

/-! ## Histograms: counting lemmas -/

theorem Histogram.total_nil : Histogram.total [] = 0 := rfl

theorem Histogram.total_cons (k : String) (c : Nat) (rest : Histogram) :
    Histogram.total ((k, c) :: rest) = c + Histogram.total rest := by
  simp [Histogram.total]

/-- One pass of `results[m]++` adds exactly one to the total, as long as the
total stays below `2^64`. -/
theorem Histogram.total_subscript_increment (h : Histogram) (m : String)
    (hlt : Histogram.total h + 1 < 2 ^ 64) :
    Histogram.total ((h.subscript m).increment m) = Histogram.total h + 1 := by
  induction h with
  | nil =>
    simp [Histogram.subscript, Histogram.increment, Histogram.total]
  | cons entry rest ih =>
    obtain ⟨k, c⟩ := entry
    rw [Histogram.total_cons] at hlt ⊢
    by_cases hk : m = k
    · have hc : (c + 1) % 2 ^ 64 = c + 1 := Nat.mod_eq_of_lt (by omega)
      simp [Histogram.subscript, Histogram.increment, hk, Histogram.total_cons, hc]
      omega
    · by_cases hlt2 : m.data < k.data
      · simp [Histogram.subscript, Histogram.increment, hk, hlt2, Histogram.total_cons]
        omega
      · have ih2 := ih (by omega)
        simp [Histogram.subscript, Histogram.increment, hk, hlt2, Histogram.total_cons, ih2]
        omega

/-! ## `Simulator`: loop lemmas -/

section SimulatorLemmas

variable {P E G D : Type}

theorem Simulator.measureLoop_total (eng : Engine P E G D) (n : Nat) :
    ∀ (sim : Simulator P E G D) (results : Histogram),
      Histogram.total results + n < 2 ^ 64 →
      Histogram.total (Simulator.measureLoop eng n sim results).1
        = Histogram.total results + n := by
  induction n with
  | zero => intro sim results _; rfl
  | succ n ih =>
    intro sim results hlt
    simp only [Simulator.measureLoop]
    rw [ih _ _ (by rw [Histogram.total_subscript_increment _ _ (by omega)]; omega),
      Histogram.total_subscript_increment _ _ (by omega)]
    omega

/-- The loop of `MeasureAllNonCollapsing` only ever writes what the engine
hands back: with an engine whose non-collapsing draw returns the edge it was
given, the edge survives any number of iterations, and the seed, the seed
flag and `epsilon` are never written at all. -/
theorem Simulator.measureLoop_frame (eng : Engine P E G D)
    (hkeep : ∀ p e g d, (eng.measureAll p e false g d).edge = e) (n : Nat) :
    ∀ (sim : Simulator P E G D) (results : Histogram),
      (Simulator.measureLoop eng n sim results).2.rootEdge = sim.rootEdge
      ∧ (Simulator.measureLoop eng n sim results).2.seed = sim.seed
      ∧ (Simulator.measureLoop eng n sim results).2.has_fixed_seed = sim.has_fixed_seed
      ∧ (Simulator.measureLoop eng n sim results).2.epsilon = sim.epsilon := by
  induction n with
  | zero => intro sim results; exact ⟨rfl, rfl, rfl, rfl⟩
  | succ n ih =>
    intro sim results
    simp only [Simulator.measureLoop]
    obtain ⟨h1, h2, h3, h4⟩ := ih (Simulator.MeasureAll eng sim false).2
      (((results.subscript (Simulator.MeasureAll eng sim false).1).increment
        (Simulator.MeasureAll eng sim false).1))
    refine ⟨?_, ?_, ?_, ?_⟩
    · rw [h1]; exact hkeep _ _ _ _
    · rw [h2]; rfl
    · rw [h3]; rfl
    · rw [h4]; rfl

/-- Two runs of the loop that start from the same edge, generator state and
`epsilon` produce the same histogram, whatever the two packages hold, when a
non-collapsing draw depends on the edge and the generator only. -/
theorem Simulator.measureLoop_deterministic (eng : Engine P E G D)
    (hdraw : ∀ p q e g d,
      (eng.measureAll p e false g d).outcome = (eng.measureAll q e false g d).outcome
      ∧ (eng.measureAll p e false g d).edge = (eng.measureAll q e false g d).edge
      ∧ (eng.measureAll p e false g d).mt = (eng.measureAll q e false g d).mt) (n : Nat) :
    ∀ (sim1 sim2 : Simulator P E G D) (results : Histogram),
      sim1.rootEdge = sim2.rootEdge → sim1.mt = sim2.mt → sim1.epsilon = sim2.epsilon →
      (Simulator.measureLoop eng n sim1 results).1
        = (Simulator.measureLoop eng n sim2 results).1 := by
  induction n with
  | zero => intro sim1 sim2 results _ _ _; rfl
  | succ n ih =>
    intro sim1 sim2 results he hg hd
    obtain ⟨ho, hedge, hmt⟩ := hdraw sim1.dd sim2.dd sim2.rootEdge sim2.mt sim2.epsilon
    simp only [Simulator.measureLoop, Simulator.MeasureAll, he, hg, hd, ho]
    exact ih _ _ _ hedge hmt rfl

end SimulatorLemmas

/-! ## Claims about `Simulator` -/

section SimulatorClaims

variable {P E G D : Type}

/-- C3: for every engine, every simulator state and every shot count (an
`unsigned int`, so below `2^32`; in particular 0, 1 and 1024), the counts of
the histogram returned by `MeasureAllNonCollapsing(shots)` sum to `shots`,
whatever bitstrings the draws return. -/
theorem measureAllNonCollapsing_counts_sum (eng : Engine P E G D)
    (sim : Simulator P E G D) (shots : Nat) (hshots : shots < 2 ^ 32) :
    Histogram.total (Simulator.MeasureAllNonCollapsing eng sim shots).1 = shots := by
  have h := Simulator.measureLoop_total eng shots sim []
    (by rw [Histogram.total_nil]; omega)
  rw [Histogram.total_nil, Nat.zero_add] at h
  exact h

theorem measureAllNonCollapsing_counts_sum_witness :
    (1024 < 2 ^ 32)
    ∧ Histogram.total
        (Simulator.MeasureAllNonCollapsing toyEngine (Simulator.seeded fixedOps toyEngine 7)
          1024).1 = 1024 :=
  ⟨by decide,
   measureAllNonCollapsing_counts_sum toyEngine (Simulator.seeded fixedOps toyEngine 7) 1024
    (by decide)⟩

/-- C4: `MeasureAll` is called with `collapse = false` in every iteration, so
with an engine whose non-collapsing `measureAll` leaves the edge unchanged,
the root edge after `MeasureAllNonCollapsing(shots)` equals the root edge
before it, for every shot count. -/
theorem measureAllNonCollapsing_keeps_rootEdge (eng : Engine P E G D)
    (hkeep : ∀ p e g d, (eng.measureAll p e false g d).edge = e)
    (sim : Simulator P E G D) (shots : Nat) :
    (Simulator.MeasureAllNonCollapsing eng sim shots).2.rootEdge = sim.rootEdge :=
  (Simulator.measureLoop_frame eng hkeep shots sim []).1

theorem measureAllNonCollapsing_keeps_rootEdge_witness :
    (∀ p e g d, (toyEngine.measureAll p e false g d).edge = e)
    ∧ (Simulator.MeasureAllNonCollapsing toyEngine
        { Simulator.seeded fixedOps toyEngine 7 with rootEdge := (3, true) } 5).2.rootEdge
        = (3, true) :=
  ⟨fun _ _ _ _ => rfl,
   measureAllNonCollapsing_keeps_rootEdge toyEngine (fun _ _ _ _ => rfl)
    { Simulator.seeded fixedOps toyEngine 7 with rootEdge := (3, true) } 5⟩

/-- C10: two simulators built by the seeded constructor from the same seed
`s` and holding the same root edge (their packages may differ) return the
same histogram from `MeasureAllNonCollapsing(shots)`, provided a
non-collapsing draw depends on the edge and the generator state only; and
`getSeed()` of each is `s` written in decimal. -/
theorem seeded_sampling_reproducible (ops : DoubleOps D) (eng : Engine P E G D)
    (hdraw : ∀ p q e g d,
      (eng.measureAll p e false g d).outcome = (eng.measureAll q e false g d).outcome
      ∧ (eng.measureAll p e false g d).edge = (eng.measureAll q e false g d).edge
      ∧ (eng.measureAll p e false g d).mt = (eng.measureAll q e false g d).mt)
    (s : Nat) (e : E) (p1 p2 : P) (shots : Nat) :
    (Simulator.MeasureAllNonCollapsing eng
        { Simulator.seeded ops eng s with dd := p1, rootEdge := e } shots).1
      = (Simulator.MeasureAllNonCollapsing eng
        { Simulator.seeded ops eng s with dd := p2, rootEdge := e } shots).1
    ∧ Simulator.getSeed { Simulator.seeded ops eng s with dd := p1, rootEdge := e }
        = String.mk (Nat.toDigits 10 s)
    ∧ Simulator.getSeed { Simulator.seeded ops eng s with dd := p2, rootEdge := e }
        = String.mk (Nat.toDigits 10 s) :=
  ⟨Simulator.measureLoop_deterministic eng hdraw shots _ _ [] rfl rfl rfl, rfl, rfl⟩

theorem seeded_sampling_reproducible_witness :
    (∀ p q e g d,
      (toyEngine.measureAll p e false g d).outcome = (toyEngine.measureAll q e false g d).outcome
      ∧ (toyEngine.measureAll p e false g d).edge = (toyEngine.measureAll q e false g d).edge
      ∧ (toyEngine.measureAll p e false g d).mt = (toyEngine.measureAll q e false g d).mt)
    ∧ ((Simulator.MeasureAllNonCollapsing toyEngine
          { Simulator.seeded fixedOps toyEngine 42 with dd := 0, rootEdge := (3, true) } 5).1
        = (Simulator.MeasureAllNonCollapsing toyEngine
          { Simulator.seeded fixedOps toyEngine 42 with dd := 9, rootEdge := (3, true) } 5).1
      ∧ Simulator.getSeed
          { Simulator.seeded fixedOps toyEngine 42 with dd := 0, rootEdge := (3, true) }
          = String.mk (Nat.toDigits 10 42)
      ∧ Simulator.getSeed
          { Simulator.seeded fixedOps toyEngine 42 with dd := 9, rootEdge := (3, true) }
          = String.mk (Nat.toDigits 10 42)) :=
  ⟨fun _ _ _ _ _ => ⟨rfl, rfl, rfl⟩,
   seeded_sampling_reproducible fixedOps toyEngine (fun _ _ _ _ _ => ⟨rfl, rfl, rfl⟩)
    42 (3, true) 0 9 5⟩

end SimulatorClaims

/-! ## Constructors: what a successful construction fixes -/

section ConstructorLemmas

variable {P E G D N DE : Type}

/-- The amplitude-damping probability both simulators derive from the
optional argument. -/
theorem ampDamping_match_eq_getD (ops : DoubleOps D) (p : D) (a : Option D) :
    (match a with
      | some value => value
      | none => ops.mul p (ops.lit 2 0)) = a.getD (ops.mul p (ops.lit 2 0)) := by
  cases a <;> rfl

theorem stochastic_init_ok (ops : DoubleOps D) (hlp : NoiseHelpers D N)
    (hc : Nat) (base : Simulator P E G D) (s : String) (p : D) (a : Option D) (f : D)
    (sim : StochasticNoiseSimulator P E G D N)
    (h : StochasticNoiseSimulator.init ops hlp hc base s p a f = .ok sim) :
    sim.base = base
    ∧ sim.noiseProbability = p
    ∧ sim.amplitudeDampingProb = a.getD (ops.mul p (ops.lit 2 0))
    ∧ sim.multiQubitGateFactor = f
    ∧ sim.maxInstances = (if hc > 4 then (hc + 2 ^ 32 - 4) % 2 ^ 32 else 1)
    ∧ hlp.initializeNoiseEffects s = some sim.noiseEffects
    ∧ hlp.sanityCheckOfNoiseProbabilities p (a.getD (ops.mul p (ops.lit 2 0))) f = true := by
  unfold StochasticNoiseSimulator.init at h
  rw [ampDamping_match_eq_getD] at h
  cases hinit : hlp.initializeNoiseEffects s with
  | none => simp [hinit] at h
  | some effects =>
    cases hchk : hlp.sanityCheckOfNoiseProbabilities p (a.getD (ops.mul p (ops.lit 2 0))) f with
    | false => simp [hinit, hchk] at h
    | true =>
      simp only [hinit, hchk, if_true, Except.ok.injEq] at h
      subst h
      exact ⟨rfl, rfl, rfl, rfl, rfl, rfl, rfl⟩

theorem stochastic_constructed_by_init (ops : DoubleOps D) (eng : Engine P E G D)
    (hlp : NoiseHelpers D N) (hc : Nat) (s : String) (p : D) (a : Option D) (f : D)
    (sim : StochasticNoiseSimulator P E G D N)
    (h : StochasticNoiseSimulator.Constructed ops eng hlp hc s p a f sim) :
    ∃ base, StochasticNoiseSimulator.init ops hlp hc base s p a f = .ok sim := by
  rcases h with ⟨rd, h⟩ | ⟨rd, h⟩ | ⟨seed, h⟩
  · exact ⟨_, h⟩
  · exact ⟨_, h⟩
  · exact ⟨_, h⟩

theorem deterministic_init_ok (ops : DoubleOps D) (deng : DensityEngine DE D)
    (hlp : NoiseHelpers D N) (base : Simulator P E G D) (nQubits : Nat)
    (s : String) (p : D) (a : Option D) (f : D)
    (sim : DeterministicNoiseSimulator P E G D N DE)
    (h : DeterministicNoiseSimulator.init ops deng hlp base nQubits s p a f = .ok sim) :
    sim.base = base
    ∧ sim.rootEdge = deng.emptyEdge
    ∧ sim.noiseProbSingleQubit = p
    ∧ sim.ampDampingProbSingleQubit = a.getD (ops.mul p (ops.lit 2 0))
    ∧ sim.noiseProbMultiQubit = ops.mul p f
    ∧ sim.ampDampingProbMultiQubit = ops.mul sim.ampDampingProbSingleQubit f
    ∧ sim.measurementThreshold = ops.lit 1 2
    ∧ hlp.initializeNoiseEffects s = some sim.noiseEffects
    ∧ hlp.sanityCheckOfNoiseProbabilities p (a.getD (ops.mul p (ops.lit 2 0))) f = true := by
  unfold DeterministicNoiseSimulator.init at h
  cases hinit : hlp.initializeNoiseEffects s with
  | none => simp [hinit] at h
  | some effects =>
    simp only [hinit, ampDamping_match_eq_getD] at h
    cases hchk : hlp.sanityCheckOfNoiseProbabilities p (a.getD (ops.mul p (ops.lit 2 0))) f with
    | false => simp [hchk] at h
    | true =>
      simp only [hchk, if_true, Except.ok.injEq] at h
      subst h
      exact ⟨rfl, rfl, rfl, rfl, rfl, rfl, rfl, rfl, rfl⟩

theorem deterministic_constructed_by_init (ops : DoubleOps D)
    (eng : Engine P E G D) (deng : DensityEngine DE D) (hlp : NoiseHelpers D N)
    (nQubits : Nat) (s : String) (p : D) (a : Option D) (f : D)
    (sim : DeterministicNoiseSimulator P E G D N DE)
    (h : DeterministicNoiseSimulator.Constructed ops eng deng hlp nQubits s p a f sim) :
    ∃ base, DeterministicNoiseSimulator.init ops deng hlp base nQubits s p a f = .ok sim := by
  rcases h with ⟨rd, h⟩ | ⟨rd, h⟩ | ⟨seed, h⟩
  · exact ⟨_, h⟩
  · exact ⟨_, h⟩
  · exact ⟨_, h⟩

/-- Validation outcome of the stochastic member initialisation, in closed form. -/
theorem stochastic_init_outcome (ops : DoubleOps D) (hlp : NoiseHelpers D N)
    (hc : Nat) (base : Simulator P E G D) (s : String) (p : D) (a : Option D) (f : D) :
    validationOutcome (StochasticNoiseSimulator.init ops hlp hc base s p a f)
      = specValidation ops hlp s p a f := by
  unfold StochasticNoiseSimulator.init specValidation
  rw [ampDamping_match_eq_getD]
  cases hinit : hlp.initializeNoiseEffects s with
  | none => simp [validationOutcome]
  | some effects =>
    cases hchk : hlp.sanityCheckOfNoiseProbabilities p (a.getD (ops.mul p (ops.lit 2 0))) f <;>
      simp [validationOutcome, hchk]

/-- Validation outcome of the deterministic member initialisation, in closed form. -/
theorem deterministic_init_outcome (ops : DoubleOps D)
    (deng : DensityEngine DE D) (hlp : NoiseHelpers D N) (base : Simulator P E G D)
    (nQubits : Nat) (s : String) (p : D) (a : Option D) (f : D) :
    validationOutcome
        (DeterministicNoiseSimulator.init ops deng hlp base nQubits s p a f)
      = specValidation ops hlp s p a f := by
  unfold DeterministicNoiseSimulator.init specValidation
  cases hinit : hlp.initializeNoiseEffects s with
  | none => simp [validationOutcome]
  | some effects =>
    simp only [ampDamping_match_eq_getD]
    cases hchk : hlp.sanityCheckOfNoiseProbabilities p (a.getD (ops.mul p (ops.lit 2 0))) f <;>
      simp [validationOutcome, hchk]

end ConstructorLemmas

/-! ## The concrete objects are constructed ones -/

theorem toyDeterministic_constructed :
    DeterministicNoiseSimulator.Constructed fixedOps toyEngine toyDensityEngine toyHelpers 2
      "APD" 1000 none 2000000 toyDeterministic :=
  Or.inr (Or.inr ⟨7, rfl⟩)

theorem toyStochastic_constructed :
    StochasticNoiseSimulator.Constructed fixedOps toyEngine toyHelpers 12
      "APD" 1000 none 2000000 toyStochastic :=
  Or.inr (Or.inr ⟨7, rfl⟩)

theorem toyDeterministicZero_constructed :
    DeterministicNoiseSimulator.Constructed fixedOps toyEngine toyDensityEngine toyHelpers 2
      "APD" 1000 (some 0) 2000000 toyDeterministicZero :=
  Or.inr (Or.inr ⟨7, rfl⟩)

theorem toyStochasticZero_constructed :
    StochasticNoiseSimulator.Constructed fixedOps toyEngine toyHelpers 12
      "APD" 1000 (some 0) 2000000 toyStochasticZero :=
  Or.inr (Or.inr ⟨7, rfl⟩)

/-! ## Claims about the noise-aware simulators -/

section NoiseClaims

variable {P E G D N DE : Type}

/-- C1: a `DeterministicNoiseSimulator` produced by any of its constructors from
a noise probability `p`, an optional amplitude-damping probability `a` and a
factor `f` has `noiseProbSingleQubit = p`, `noiseProbMultiQubit = p * f` and
`ampDampingProbMultiQubit = ampDampingProbSingleQubit * f`; a
`StochasticNoiseSimulator` produced from the same arguments keeps `p`, the
derived amplitude-damping probability and `f`. -/
theorem multiQubit_probabilities_derived (ops : DoubleOps D) (eng : Engine P E G D)
    (deng : DensityEngine DE D) (hlp : NoiseHelpers D N) (hc nQubits : Nat)
    (s : String) (p : D) (a : Option D) (f : D) :
    (∀ det : DeterministicNoiseSimulator P E G D N DE,
      DeterministicNoiseSimulator.Constructed ops eng deng hlp nQubits s p a f det →
        det.noiseProbSingleQubit = p
        ∧ det.noiseProbMultiQubit = ops.mul p f
        ∧ det.ampDampingProbMultiQubit = ops.mul det.ampDampingProbSingleQubit f)
    ∧ (∀ sto : StochasticNoiseSimulator P E G D N,
      StochasticNoiseSimulator.Constructed ops eng hlp hc s p a f sto →
        sto.noiseProbability = p
        ∧ sto.amplitudeDampingProb = a.getD (ops.mul p (ops.lit 2 0))
        ∧ sto.multiQubitGateFactor = f) := by
  constructor
  · intro det hdet
    obtain ⟨base, hinit⟩ :=
      deterministic_constructed_by_init ops eng deng hlp nQubits s p a f det hdet
    obtain ⟨_, _, h1, _, h2, h3, _⟩ :=
      deterministic_init_ok ops deng hlp base nQubits s p a f det hinit
    exact ⟨h1, h2, h3⟩
  · intro sto hsto
    obtain ⟨base, hinit⟩ :=
      stochastic_constructed_by_init ops eng hlp hc s p a f sto hsto
    obtain ⟨_, h1, h2, h3, _⟩ :=
      stochastic_init_ok ops hlp hc base s p a f sto hinit
    exact ⟨h1, h2, h3⟩

theorem multiQubit_probabilities_derived_witness :
    (toyDeterministic.noiseProbSingleQubit = 1000
      ∧ toyDeterministic.noiseProbMultiQubit = fixedOps.mul 1000 2000000
      ∧ toyDeterministic.ampDampingProbMultiQubit
          = fixedOps.mul toyDeterministic.ampDampingProbSingleQubit 2000000)
    ∧ (toyStochastic.noiseProbability = 1000
      ∧ toyStochastic.amplitudeDampingProb
          = (none : Option Int).getD (fixedOps.mul 1000 (fixedOps.lit 2 0))
      ∧ toyStochastic.multiQubitGateFactor = 2000000) :=
  ⟨(multiQubit_probabilities_derived fixedOps toyEngine toyDensityEngine toyHelpers 12 2
      "APD" 1000 none 2000000).1 toyDeterministic toyDeterministic_constructed,
   (multiQubit_probabilities_derived fixedOps toyEngine toyDensityEngine toyHelpers 12 2
      "APD" 1000 none 2000000).2 toyStochastic toyStochastic_constructed⟩

/-- C2: for every noise probability `p`, a simulator produced by any
constructor without an amplitude-damping argument has single-qubit
amplitude-damping probability `p * 2`, and one produced with an argument `a`
(zero included) has exactly `a`; this holds for
`DeterministicNoiseSimulator.ampDampingProbSingleQubit` and for
`StochasticNoiseSimulator.amplitudeDampingProb`. -/
theorem ampDamping_default_is_twice (ops : DoubleOps D) (eng : Engine P E G D)
    (deng : DensityEngine DE D) (hlp : NoiseHelpers D N) (hc nQubits : Nat)
    (s : String) (p : D) (f : D) :
    (∀ det : DeterministicNoiseSimulator P E G D N DE,
      DeterministicNoiseSimulator.Constructed ops eng deng hlp nQubits s p none f det →
        det.ampDampingProbSingleQubit = ops.mul p (ops.lit 2 0))
    ∧ (∀ (a : D) (det : DeterministicNoiseSimulator P E G D N DE),
      DeterministicNoiseSimulator.Constructed ops eng deng hlp nQubits s p (some a) f det →
        det.ampDampingProbSingleQubit = a)
    ∧ (∀ sto : StochasticNoiseSimulator P E G D N,
      StochasticNoiseSimulator.Constructed ops eng hlp hc s p none f sto →
        sto.amplitudeDampingProb = ops.mul p (ops.lit 2 0))
    ∧ (∀ (a : D) (sto : StochasticNoiseSimulator P E G D N),
      StochasticNoiseSimulator.Constructed ops eng hlp hc s p (some a) f sto →
        sto.amplitudeDampingProb = a) := by
  refine ⟨?_, ?_, ?_, ?_⟩
  · intro det hdet
    obtain ⟨base, hinit⟩ :=
      deterministic_constructed_by_init ops eng deng hlp nQubits s p none f det hdet
    exact (deterministic_init_ok ops deng hlp base nQubits s p none f det
      hinit).2.2.2.1
  · intro a det hdet
    obtain ⟨base, hinit⟩ :=
      deterministic_constructed_by_init ops eng deng hlp nQubits s p (some a) f
        det hdet
    exact (deterministic_init_ok ops deng hlp base nQubits s p (some a) f det
      hinit).2.2.2.1
  · intro sto hsto
    obtain ⟨base, hinit⟩ :=
      stochastic_constructed_by_init ops eng hlp hc s p none f sto hsto
    exact (stochastic_init_ok ops hlp hc base s p none f sto hinit).2.2.1
  · intro a sto hsto
    obtain ⟨base, hinit⟩ :=
      stochastic_constructed_by_init ops eng hlp hc s p (some a) f sto hsto
    exact (stochastic_init_ok ops hlp hc base s p (some a) f sto hinit).2.2.1

theorem ampDamping_default_is_twice_witness :
    toyDeterministic.ampDampingProbSingleQubit = fixedOps.mul 1000 (fixedOps.lit 2 0)
    ∧ toyDeterministicZero.ampDampingProbSingleQubit = 0
    ∧ toyStochastic.amplitudeDampingProb = fixedOps.mul 1000 (fixedOps.lit 2 0)
    ∧ toyStochasticZero.amplitudeDampingProb = 0 :=
  ⟨(ampDamping_default_is_twice fixedOps toyEngine toyDensityEngine toyHelpers 12 2
      "APD" 1000 2000000).1 toyDeterministic toyDeterministic_constructed,
   (ampDamping_default_is_twice fixedOps toyEngine toyDensityEngine toyHelpers 12 2
      "APD" 1000 2000000).2.1 0 toyDeterministicZero toyDeterministicZero_constructed,
   (ampDamping_default_is_twice fixedOps toyEngine toyDensityEngine toyHelpers 12 2
      "APD" 1000 2000000).2.2.1 toyStochastic toyStochastic_constructed,
   (ampDamping_default_is_twice fixedOps toyEngine toyDensityEngine toyHelpers 12 2
      "APD" 1000 2000000).2.2.2 0 toyStochasticZero toyStochasticZero_constructed⟩

/-- C5: with the sanity check of the specification, whenever the scaled
multi-qubit probability `p * f` or the scaled amplitude-damping probability
`ampDamping * f` exceeds 1, the check rejects the triple every constructor
hands to it, and no constructor of `DeterministicNoiseSimulator` or of
`StochasticNoiseSimulator` produces an object, whatever the noise-effect
parser does. -/
theorem construction_fails_when_scaled_exceeds_one (ops : DoubleOps D)
    (eng : Engine P E G D) (deng : DensityEngine DE D)
    (parse : String → Option (List N)) (hc nQubits : Nat)
    (s : String) (p : D) (a : Option D) (f : D)
    (hexceeds : ops.lt (ops.lit 1 0) (ops.mul p f) = true
      ∨ ops.lt (ops.lit 1 0) (ops.mul (a.getD (ops.mul p (ops.lit 2 0))) f) = true) :
    sanityCheckOfNoiseProbabilities ops p (a.getD (ops.mul p (ops.lit 2 0))) f = false
    ∧ (∀ det : DeterministicNoiseSimulator P E G D N DE,
      ¬ DeterministicNoiseSimulator.Constructed ops eng deng
          ⟨parse, sanityCheckOfNoiseProbabilities ops⟩ nQubits s p a f det)
    ∧ (∀ sto : StochasticNoiseSimulator P E G D N,
      ¬ StochasticNoiseSimulator.Constructed ops eng
          ⟨parse, sanityCheckOfNoiseProbabilities ops⟩ hc s p a f sto) := by
  have hrej :
      sanityCheckOfNoiseProbabilities ops p (a.getD (ops.mul p (ops.lit 2 0))) f = false := by
    unfold sanityCheckOfNoiseProbabilities
    rcases hexceeds with h | h <;> simp [h]
  refine ⟨hrej, ?_, ?_⟩
  · intro det hdet
    obtain ⟨base, hinit⟩ :=
      deterministic_constructed_by_init ops eng deng _ nQubits s p a f det hdet
    have hok := (deterministic_init_ok ops deng _ base nQubits s p a f det
      hinit).2.2.2.2.2.2.2.2
    exact Bool.noConfusion (hrej.symm.trans hok)
  · intro sto hsto
    obtain ⟨base, hinit⟩ :=
      stochastic_constructed_by_init ops eng _ hc s p a f sto hsto
    have hok := (stochastic_init_ok ops _ hc base s p a f sto hinit).2.2.2.2.2.2
    exact Bool.noConfusion (hrej.symm.trans hok)

theorem construction_fails_when_scaled_exceeds_one_witness :
    (fixedOps.lt (fixedOps.lit 1 0) (fixedOps.mul 600000 2000000) = true
      ∨ fixedOps.lt (fixedOps.lit 1 0)
          (fixedOps.mul ((none : Option Int).getD (fixedOps.mul 600000 (fixedOps.lit 2 0)))
            2000000) = true)
    ∧ (sanityCheckOfNoiseProbabilities fixedOps 600000
          ((none : Option Int).getD (fixedOps.mul 600000 (fixedOps.lit 2 0))) 2000000 = false
      ∧ (∀ det : DeterministicNoiseSimulator Nat (Nat × Bool) Nat Int Char (Nat × Bool),
        ¬ DeterministicNoiseSimulator.Constructed fixedOps toyEngine toyDensityEngine
            ⟨toyHelpers.initializeNoiseEffects, sanityCheckOfNoiseProbabilities fixedOps⟩
            2 "APD" 600000 none 2000000 det)
      ∧ (∀ sto : StochasticNoiseSimulator Nat (Nat × Bool) Nat Int Char,
        ¬ StochasticNoiseSimulator.Constructed fixedOps toyEngine
            ⟨toyHelpers.initializeNoiseEffects, sanityCheckOfNoiseProbabilities fixedOps⟩
            12 "APD" 600000 none 2000000 sto)) :=
  ⟨Or.inl (by decide),
   construction_fails_when_scaled_exceeds_one fixedOps toyEngine toyDensityEngine
    toyHelpers.initializeNoiseEffects 12 2 "APD" 600000 none 2000000 (Or.inl (by decide))⟩

/-- C6: for a simulator whose `measurementThreshold` is the one every
constructor installs (nothing in the header assigns it again), for every root
edge and every shot count, `measureAllNonCollapsing(shots)` is
`sampleFromProbabilityMap` applied to the sparse probability vector of the
root edge at threshold `0.01` and to `shots`; the vector is extracted once,
before sampling, as the specification words it. -/
theorem deterministic_measureAllNonCollapsing_samples_sparse_vector (ops : DoubleOps D)
    (eng : Engine P E G D) (deng : DensityEngine DE D) (hlp : NoiseHelpers D N)
    (sampleFromProbabilityMap : SampleFromProbabilityMap P E G D N DE)
    (nQubits : Nat) (s : String) (p : D) (a : Option D) (f : D)
    (sim0 sim : DeterministicNoiseSimulator P E G D N DE)
    (hsim0 : DeterministicNoiseSimulator.Constructed ops eng deng hlp nQubits s p a f sim0)
    (hthreshold : sim.measurementThreshold = sim0.measurementThreshold) (shots : Nat) :
    sim0.measurementThreshold = ops.lit 1 2
    ∧ DeterministicNoiseSimulator.measureAllNonCollapsing deng sampleFromProbabilityMap sim shots
        = sampleFromProbabilityMap sim
            (deng.getSparseProbabilityVectorStrKeys sim.rootEdge (ops.lit 1 2)) shots
    ∧ DeterministicNoiseSimulator.measureAllNonCollapsing deng sampleFromProbabilityMap sim shots
        = DeterministicNoiseSimulator.specMeasureAllNonCollapsing ops deng
            sampleFromProbabilityMap sim shots := by
  obtain ⟨base, hinit⟩ :=
    deterministic_constructed_by_init ops eng deng hlp nQubits s p a f sim0 hsim0
  have hthr0 : sim0.measurementThreshold = ops.lit 1 2 :=
    (deterministic_init_ok ops deng hlp base nQubits s p a f sim0
      hinit).2.2.2.2.2.2.1
  have hthr : sim.measurementThreshold = ops.lit 1 2 := hthreshold.trans hthr0
  refine ⟨hthr0, ?_, ?_⟩
  · unfold DeterministicNoiseSimulator.measureAllNonCollapsing
    rw [hthr]
  · unfold DeterministicNoiseSimulator.measureAllNonCollapsing
      DeterministicNoiseSimulator.specMeasureAllNonCollapsing
    rw [hthr]

theorem deterministic_measureAllNonCollapsing_samples_sparse_vector_witness :
    DeterministicNoiseSimulator.Constructed fixedOps toyEngine toyDensityEngine toyHelpers 2
      "APD" 1000 none 2000000 toyDeterministic
    ∧ ({ toyDeterministic with rootEdge := (3, true) }
        : DeterministicNoiseSimulator Nat (Nat × Bool) Nat Int Char (Nat × Bool)).measurementThreshold
        = toyDeterministic.measurementThreshold
    ∧ (toyDeterministic.measurementThreshold = fixedOps.lit 1 2
      ∧ DeterministicNoiseSimulator.measureAllNonCollapsing toyDensityEngine toySample
          { toyDeterministic with rootEdge := (3, true) } 1024
          = toySample { toyDeterministic with rootEdge := (3, true) }
              (toyDensityEngine.getSparseProbabilityVectorStrKeys (3, true) (fixedOps.lit 1 2))
              1024
      ∧ DeterministicNoiseSimulator.measureAllNonCollapsing toyDensityEngine toySample
          { toyDeterministic with rootEdge := (3, true) } 1024
          = DeterministicNoiseSimulator.specMeasureAllNonCollapsing fixedOps toyDensityEngine
              toySample { toyDeterministic with rootEdge := (3, true) } 1024) :=
  ⟨toyDeterministic_constructed, rfl,
   deterministic_measureAllNonCollapsing_samples_sparse_vector fixedOps toyEngine
    toyDensityEngine toyHelpers toySample 2 "APD" 1000 none 2000000 toyDeterministic
    { toyDeterministic with rootEdge := (3, true) } toyDeterministic_constructed rfl 1024⟩

/-- C7: for every hardware-concurrency value `h` of type `unsigned int`
(zero included), a `StochasticNoiseSimulator` produced by any of its
constructors has `maxInstances = h - 4` when `h > 4` and `1` otherwise, that
is `max(1, h - 4)` with no unsigned wrap-around, hence at least 1. -/
theorem maxInstances_is_floored_margin (ops : DoubleOps D) (eng : Engine P E G D)
    (hlp : NoiseHelpers D N) (h : Nat) (hrange : h < 2 ^ 32)
    (s : String) (p : D) (a : Option D) (f : D) (sto : StochasticNoiseSimulator P E G D N)
    (hsto : StochasticNoiseSimulator.Constructed ops eng hlp h s p a f sto) :
    sto.maxInstances = (if h > 4 then h - 4 else 1)
    ∧ sto.maxInstances = max 1 (h - 4)
    ∧ 1 ≤ sto.maxInstances := by
  obtain ⟨base, hinit⟩ :=
    stochastic_constructed_by_init ops eng hlp h s p a f sto hsto
  have hmax := (stochastic_init_ok ops hlp h base s p a f sto hinit).2.2.2.2.1
  rw [hmax]
  by_cases h4 : h > 4
  · have hmod : (h + 2 ^ 32 - 4) % 2 ^ 32 = h - 4 := by
      have : h + 2 ^ 32 - 4 = (h - 4) + 2 ^ 32 := by omega
      rw [this, Nat.add_mod_right]
      exact Nat.mod_eq_of_lt (by omega)
    simp only [h4, if_true, hmod]
    refine ⟨trivial, ?_, ?_⟩ <;> omega
  · simp only [h4, if_false]
    refine ⟨trivial, ?_, ?_⟩ <;> omega

theorem maxInstances_is_floored_margin_witness :
    (12 < 2 ^ 32)
    ∧ StochasticNoiseSimulator.Constructed fixedOps toyEngine toyHelpers 12
        "APD" 1000 none 2000000 toyStochastic
    ∧ (toyStochastic.maxInstances = (if 12 > 4 then 12 - 4 else 1)
      ∧ toyStochastic.maxInstances = max 1 (12 - 4)
      ∧ 1 ≤ toyStochastic.maxInstances) :=
  ⟨by decide, toyStochastic_constructed,
   maxInstances_is_floored_margin fixedOps toyEngine toyHelpers 12 (by decide)
    "APD" 1000 none 2000000 toyStochastic toyStochastic_constructed⟩

/-- C8: `countNodesFromRoot()` returns the size of the aligned root edge and
leaves `setDensityMatrixTrue (alignDensityEdge root)` as the root edge, every
other member untouched.  For an engine in which an edge is a payload plus a
density flag, `alignDensityEdge` keeps the payload and `setDensityMatrixTrue`
keeps the payload and sets the flag, the root edge after the call has its
density flag set and the payload it had before. -/
theorem countNodesFromRoot_aligns_counts_restores {X : Type} (deng : DensityEngine DE D)
    (payload : DE → X) (isDensity : DE → Bool)
    (halign : ∀ e, payload (deng.alignDensityEdge e) = payload e)
    (hset : ∀ e, payload (deng.setDensityMatrixTrue e) = payload e
      ∧ isDensity (deng.setDensityMatrixTrue e) = true)
    (sim : DeterministicNoiseSimulator P E G D N DE) :
    (DeterministicNoiseSimulator.countNodesFromRoot deng sim).1
        = deng.size (deng.alignDensityEdge sim.rootEdge)
    ∧ (DeterministicNoiseSimulator.countNodesFromRoot deng sim).2
        = { sim with
            rootEdge := deng.setDensityMatrixTrue (deng.alignDensityEdge sim.rootEdge) }
    ∧ isDensity (DeterministicNoiseSimulator.countNodesFromRoot deng sim).2.rootEdge = true
    ∧ payload (DeterministicNoiseSimulator.countNodesFromRoot deng sim).2.rootEdge
        = payload sim.rootEdge := by
  refine ⟨rfl, rfl, ?_, ?_⟩
  · exact (hset (deng.alignDensityEdge sim.rootEdge)).2
  · exact ((hset (deng.alignDensityEdge sim.rootEdge)).1).trans (halign sim.rootEdge)

theorem countNodesFromRoot_aligns_counts_restores_witness :
    (∀ e, Prod.fst (toyDensityEngine.alignDensityEdge e) = Prod.fst e)
    ∧ (∀ e, Prod.fst (toyDensityEngine.setDensityMatrixTrue e) = Prod.fst e
        ∧ Prod.snd (toyDensityEngine.setDensityMatrixTrue e) = true)
    ∧ ((DeterministicNoiseSimulator.countNodesFromRoot toyDensityEngine
          { toyDeterministic with rootEdge := (3, true) }).1
          = toyDensityEngine.size (toyDensityEngine.alignDensityEdge (3, true))
      ∧ (DeterministicNoiseSimulator.countNodesFromRoot toyDensityEngine
          { toyDeterministic with rootEdge := (3, true) }).2
          = { toyDeterministic with
              rootEdge := toyDensityEngine.setDensityMatrixTrue
                (toyDensityEngine.alignDensityEdge (3, true)) }
      ∧ Prod.snd (DeterministicNoiseSimulator.countNodesFromRoot toyDensityEngine
          { toyDeterministic with rootEdge := (3, true) }).2.rootEdge = true
      ∧ Prod.fst (DeterministicNoiseSimulator.countNodesFromRoot toyDensityEngine
          { toyDeterministic with rootEdge := (3, true) }).2.rootEdge = 3) :=
  ⟨fun _ => rfl, fun _ => ⟨rfl, rfl⟩,
   countNodesFromRoot_aligns_counts_restores toyDensityEngine Prod.fst Prod.snd
    (fun _ => rfl) (fun _ => ⟨rfl, rfl⟩) { toyDeterministic with rootEdge := (3, true) }⟩

/-- C9: for every noise-effect string, noise probability, optional
amplitude-damping probability and factor, every constructor of
`StochasticNoiseSimulator` and every constructor of
`DeterministicNoiseSimulator` ends validation the same way, namely as the
shared validation of the specification does: the same parser is applied to
the string and the same sanity check to the same triple.  Hence one variant
can be constructed exactly when the other can. -/
theorem deterministic_shares_stochastic_validation (ops : DoubleOps D)
    (eng : Engine P E G D) (deng : DensityEngine DE D) (hlp : NoiseHelpers D N)
    (hc nQubits : Nat) (random_data : List Nat) (seed_ : Nat)
    (s : String) (p : D) (a : Option D) (f : D) :
    validationOutcome (StochasticNoiseSimulator.ctor ops eng hlp hc random_data s p a f)
        = specValidation ops hlp s p a f
    ∧ validationOutcome
          (StochasticNoiseSimulator.ctorDelegating ops eng hlp hc random_data s p a f)
        = specValidation ops hlp s p a f
    ∧ validationOutcome (StochasticNoiseSimulator.ctorSeeded ops eng hlp hc seed_ s p a f)
        = specValidation ops hlp s p a f
    ∧ validationOutcome
          (DeterministicNoiseSimulator.ctor ops eng deng hlp random_data nQubits s p a f)
        = specValidation ops hlp s p a f
    ∧ validationOutcome
          (DeterministicNoiseSimulator.ctorDelegating ops eng deng hlp random_data nQubits
            s p a f)
        = specValidation ops hlp s p a f
    ∧ validationOutcome
          (DeterministicNoiseSimulator.ctorSeeded ops eng deng hlp seed_ nQubits s p a f)
        = specValidation ops hlp s p a f
    ∧ ((∃ sto : StochasticNoiseSimulator P E G D N,
          StochasticNoiseSimulator.Constructed ops eng hlp hc s p a f sto)
        ↔ (∃ det : DeterministicNoiseSimulator P E G D N DE,
          DeterministicNoiseSimulator.Constructed ops eng deng hlp nQubits s p a f det)) := by
  have hsto : ∀ base : Simulator P E G D,
      validationOutcome (StochasticNoiseSimulator.init ops hlp hc base s p a f)
        = specValidation ops hlp s p a f :=
    fun base => stochastic_init_outcome ops hlp hc base s p a f
  have hdet : ∀ base : Simulator P E G D,
      validationOutcome
          (DeterministicNoiseSimulator.init ops deng hlp base nQubits s p a f)
        = specValidation ops hlp s p a f :=
    fun base => deterministic_init_outcome ops deng hlp base nQubits s p a f
  refine ⟨hsto _, hsto _, hsto _, hdet _, hdet _, hdet _, ?_⟩
  constructor
  · rintro ⟨sto, hcon⟩
    obtain ⟨base, hinit⟩ :=
      stochastic_constructed_by_init ops eng hlp hc s p a f sto hcon
    have hnone : specValidation ops hlp s p a f = none := by
      rw [← hsto base, hinit]; rfl
    have hd := hdet (Simulator.seeded ops eng seed_)
    rw [hnone] at hd
    cases hr : DeterministicNoiseSimulator.init ops deng hlp (Simulator.seeded ops eng seed_)
        nQubits s p a f with
    | ok det => exact ⟨det, Or.inr (Or.inr ⟨seed_, hr⟩)⟩
    | error err => rw [hr] at hd; exact Option.noConfusion hd
  · rintro ⟨det, hcon⟩
    obtain ⟨base, hinit⟩ :=
      deterministic_constructed_by_init ops eng deng hlp nQubits s p a f det hcon
    have hnone : specValidation ops hlp s p a f = none := by
      rw [← hdet base, hinit]; rfl
    have hd := hsto (Simulator.seeded ops eng seed_)
    rw [hnone] at hd
    cases hr : StochasticNoiseSimulator.init ops hlp hc (Simulator.seeded ops eng seed_)
        s p a f with
    | ok sto => exact ⟨sto, Or.inr (Or.inr ⟨seed_, hr⟩)⟩
    | error err => rw [hr] at hd; exact Option.noConfusion hd

end NoiseClaims

/-! ## Histograms: what is stored under each key -/

theorem Histogram.get_eq_none_of_below (h : Histogram) (m : String)
    (hbelow : ∀ e ∈ h, m.data < e.1.data) : h.get m = none := by
  induction h with
  | nil => rfl
  | cons entry rest ih =>
    obtain ⟨k, c⟩ := entry
    have hk : m.data < k.data := hbelow (k, c) (List.mem_cons_self _ _)
    have hne : m ≠ k := fun heq => lt_irrefl k.data (heq ▸ hk)
    simp only [Histogram.get, hne, if_false]
    exact ih (fun e he => hbelow e (List.mem_cons_of_mem _ he))

theorem Histogram.key_order_total (m k : String) (hne : ¬ m = k)
    (hnlt : ¬ m.data < k.data) : k.data < m.data := by
  rcases lt_trichotomy m.data k.data with h | h | h
  · exact absurd h hnlt
  · exact absurd (String.ext h) hne
  · exact h

theorem Histogram.mem_subscript (h : Histogram) (m : String) (e : String × Nat)
    (he : e ∈ h.subscript m) : e ∈ h ∨ e = (m, 0) := by
  induction h with
  | nil =>
    simp only [Histogram.subscript, List.mem_singleton] at he
    exact Or.inr he
  | cons entry rest ih =>
    obtain ⟨k, c⟩ := entry
    by_cases hk : m = k
    · simp only [Histogram.subscript, hk, if_true] at he
      exact Or.inl he
    · by_cases hlt : m.data < k.data
      · simp only [Histogram.subscript, hk, hlt, if_true, if_false, List.mem_cons] at he
        rcases he with he | he | he
        · exact Or.inr he
        · exact Or.inl (he ▸ List.mem_cons_self _ _)
        · exact Or.inl (List.mem_cons_of_mem _ he)
      · simp only [Histogram.subscript, hk, hlt, if_false, List.mem_cons] at he
        rcases he with he | he
        · exact Or.inl (he ▸ List.mem_cons_self _ _)
        · rcases ih he with h1 | h1
          · exact Or.inl (List.mem_cons_of_mem _ h1)
          · exact Or.inr h1

theorem Histogram.sorted_subscript (h : Histogram) (m : String) (hs : h.Sorted) :
    (h.subscript m).Sorted := by
  induction h with
  | nil => simp [Histogram.subscript, Histogram.Sorted]
  | cons entry rest ih =>
    obtain ⟨k, c⟩ := entry
    unfold Histogram.Sorted at hs ih ⊢
    rw [List.pairwise_cons] at hs
    by_cases hk : m = k
    · simp only [Histogram.subscript, hk, if_true]
      exact List.pairwise_cons.mpr hs
    · by_cases hlt : m.data < k.data
      · simp only [Histogram.subscript, hk, hlt, if_true, if_false]
        refine List.pairwise_cons.mpr ⟨?_, List.pairwise_cons.mpr hs⟩
        intro e he
        rcases List.mem_cons.mp he with he | he
        · rw [he]; exact hlt
        · exact lt_trans hlt (hs.1 e he)
      · simp only [Histogram.subscript, hk, hlt, if_false]
        refine List.pairwise_cons.mpr ⟨?_, ih hs.2⟩
        intro e he
        rcases Histogram.mem_subscript rest m e he with h1 | h1
        · exact hs.1 e h1
        · rw [h1]; exact Histogram.key_order_total m k hk hlt

theorem Histogram.keys_increment (h : Histogram) (m : String) :
    (h.increment m).map Prod.fst = h.map Prod.fst := by
  induction h with
  | nil => rfl
  | cons entry rest ih =>
    obtain ⟨k, c⟩ := entry
    by_cases hk : m = k
    · simp [Histogram.increment, hk]
    · simp [Histogram.increment, hk, ih]

theorem Histogram.sorted_iff_keys (h : Histogram) :
    h.Sorted ↔ (h.map Prod.fst).Pairwise (fun a b => a.data < b.data) := by
  unfold Histogram.Sorted
  rw [List.pairwise_map]

theorem Histogram.sorted_increment (h : Histogram) (m : String) (hs : h.Sorted) :
    (h.increment m).Sorted := by
  rw [Histogram.sorted_iff_keys] at hs ⊢
  rw [Histogram.keys_increment]
  exact hs

theorem Histogram.get_subscript (h : Histogram) (m k : String) (hs : h.Sorted) :
    (h.subscript m).get k = if k = m then some ((h.get m).getD 0) else h.get k := by
  induction h with
  | nil =>
    by_cases hkm : k = m <;> simp [Histogram.subscript, Histogram.get, hkm]
  | cons entry rest ih =>
    obtain ⟨k1, c⟩ := entry
    unfold Histogram.Sorted at hs ih
    rw [List.pairwise_cons] at hs
    by_cases hk : m = k1
    · subst hk
      by_cases hkm : k = m <;> simp [Histogram.subscript, Histogram.get, hkm]
    · by_cases hlt : m.data < k1.data
      · have hnone : Histogram.get ((k1, c) :: rest) m = none := by
          apply Histogram.get_eq_none_of_below
          intro e he
          rcases List.mem_cons.mp he with he | he
          · rw [he]; exact hlt
          · exact lt_trans hlt (hs.1 e he)
        have hrest : Histogram.get rest m = none := by
          simpa [Histogram.get, hk] using hnone
        by_cases hkm : k = m
        · subst hkm
          simp [Histogram.subscript, hk, hlt, hrest, Histogram.get]
        · simp [Histogram.subscript, hk, hlt, Histogram.get, hkm]
      · by_cases hkm : k = m
        · subst hkm
          simp [Histogram.subscript, hk, hlt, Histogram.get, ih hs.2]
        · by_cases hk1 : k = k1
          · subst hk1
            simp [Histogram.subscript, hk, hlt, Histogram.get, hkm]
          · simp [Histogram.subscript, hk, hlt, Histogram.get, hk1, hkm, ih hs.2]

theorem Histogram.get_increment (h : Histogram) (m k : String) :
    (h.increment m).get k
      = if k = m then (h.get m).map (fun c => (c + 1) % 2 ^ 64) else h.get k := by
  induction h with
  | nil => by_cases hkm : k = m <;> simp [Histogram.increment, Histogram.get, hkm]
  | cons entry rest ih =>
    obtain ⟨k1, c⟩ := entry
    by_cases hk : m = k1
    · subst hk
      by_cases hkm : k = m <;> simp [Histogram.increment, Histogram.get, hkm]
    · by_cases hkm : k = m
      · subst hkm
        simp [Histogram.increment, Histogram.get, hk, ih]
      · by_cases hk1 : k = k1
        · subst hk1
          simp [Histogram.increment, Histogram.get, hk, hkm]
        · simp [Histogram.increment, Histogram.get, hk, hk1, hkm, ih]

theorem Histogram.mem_iff_get (h : Histogram) (k : String) (c : Nat) (hs : h.Sorted) :
    (k, c) ∈ h ↔ h.get k = some c := by
  induction h with
  | nil => simp [Histogram.get]
  | cons entry rest ih =>
    obtain ⟨k1, c1⟩ := entry
    unfold Histogram.Sorted at hs ih
    rw [List.pairwise_cons] at hs
    by_cases hk1 : k = k1
    · subst hk1
      have hnot : (k, c) ∉ rest := fun hmem => lt_irrefl k.data (hs.1 (k, c) hmem)
      simp [Histogram.get, hnot]
      exact eq_comm
    · simp [Histogram.get, hk1, ih hs.2]

theorem Histogram.tallies_nil : Histogram.Tallies [] [] := by
  refine ⟨List.Pairwise.nil, ?_⟩
  intro k
  simp [Histogram.get]

/-- One pass of `results[m]++` turns a tally of `ds` into a tally of `ds`
followed by `m`, as long as no count can reach `2^64`. -/
theorem Histogram.tallies_step (h : Histogram) (ds : List String) (m : String)
    (ht : h.Tallies ds) (hlen : ds.length + 1 < 2 ^ 64) :
    Histogram.Tallies ((h.subscript m).increment m) (ds ++ [m]) := by
  obtain ⟨hs, hget⟩ := ht
  refine ⟨Histogram.sorted_increment _ m (Histogram.sorted_subscript h m hs), ?_⟩
  intro k
  rw [Histogram.get_increment, Histogram.get_subscript h m k hs,
    Histogram.get_subscript h m m hs, List.count_append]
  have hcount : ds.count m ≤ ds.length := List.count_le_length m ds
  have hgetD : (h.get m).getD 0 = ds.count m := by
    rw [hget m]
    by_cases hz : ds.count m = 0
    · simp [hz]
    · simp [hz]
  by_cases hkm : k = m
  · subst hkm
    have hmod : (List.count k ds + 1) % 2 ^ 64 = List.count k ds + 1 :=
      Nat.mod_eq_of_lt (by omega)
    rw [if_pos rfl, if_pos rfl, hgetD, Option.map_some', hmod, List.count_singleton_self,
      if_neg (Nat.succ_ne_zero _)]
  · have hmk : ¬ m = k := fun heq => hkm heq.symm
    simp [hkm, hmk, hget k, List.count_singleton]

theorem Histogram.length_le_total (h : Histogram) (hpos : ∀ e ∈ h, 1 ≤ e.2) :
    h.length ≤ Histogram.total h := by
  induction h with
  | nil => simp [Histogram.total]
  | cons entry rest ih =>
    obtain ⟨k, c⟩ := entry
    have hc : 1 ≤ c := hpos (k, c) (List.mem_cons_self _ _)
    have hrest := ih (fun e he => hpos e (List.mem_cons_of_mem _ he))
    rw [Histogram.total_cons, List.length_cons]
    omega

theorem Histogram.keys_nodup_of_sorted (h : Histogram) (hs : h.Sorted) :
    (h.map Prod.fst).Nodup := by
  rw [Histogram.sorted_iff_keys] at hs
  unfold List.Nodup
  refine hs.imp ?_
  intro a b hlt heq
  rw [heq] at hlt
  exact lt_irrefl _ hlt

/-! ## `Simulator`: the histogram is the tally of the draws -/

section DrawLemmas

variable {P E G D : Type}

theorem Simulator.draws_length (eng : Engine P E G D) (n : Nat) :
    ∀ sim : Simulator P E G D, (Simulator.draws eng n sim).length = n := by
  induction n with
  | zero => intro sim; rfl
  | succ n ih => intro sim; simp [Simulator.draws, ih]

theorem Simulator.measureLoop_tallies (eng : Engine P E G D) (n : Nat) :
    ∀ (sim : Simulator P E G D) (results : Histogram) (ds : List String),
      results.Tallies ds → ds.length + n < 2 ^ 64 →
      Histogram.Tallies (Simulator.measureLoop eng n sim results).1
        (ds ++ Simulator.draws eng n sim) := by
  induction n with
  | zero =>
    intro sim results ds ht _
    simpa [Simulator.measureLoop, Simulator.draws] using ht
  | succ n ih =>
    intro sim results ds ht hlen
    have hstep := Histogram.tallies_step results ds (Simulator.MeasureAll eng sim false).1 ht
      (by omega)
    have hrec := ih (Simulator.MeasureAll eng sim false).2 _ _ hstep
      (by rw [List.length_append, List.length_singleton]; omega)
    simp only [Simulator.measureLoop, Simulator.draws]
    rw [List.append_assoc, List.singleton_append] at hrec
    exact hrec

end DrawLemmas

/-! ## `toBinaryString`: the indices below 31 -/

theorem land_two_pow_ne_zero_iff (m j : Nat) : m &&& 2 ^ j ≠ 0 ↔ m.testBit j = true := by
  constructor
  · intro hne
    obtain ⟨i, hi⟩ := Nat.ne_zero_implies_bit_true hne
    rw [Nat.testBit_and, Nat.testBit_two_pow] at hi
    simp only [Bool.and_eq_true, decide_eq_true_eq] at hi
    rw [hi.2]; exact hi.1
  · intro hbit hzero
    have h := Nat.testBit_and m (2 ^ j) j
    rw [hzero, Nat.zero_testBit, hbit, Nat.testBit_two_pow_self] at h
    exact Bool.noConfusion h

theorem intToSizeT_two_pow (j : Nat) (hj : j < 64) : intToSizeT (2 ^ j) = 2 ^ j := by
  unfold intToSizeT
  have hlt : (2 : Int) ^ j < 2 ^ 64 := by
    have : (2 : Nat) ^ j < 2 ^ 64 := Nat.pow_lt_pow_right (by decide) hj
    exact_mod_cast this
  rw [Int.emod_eq_of_lt (by positivity) hlt]
  have hcast : ((2 : Int) ^ j) = (((2 : Nat) ^ j : Nat) : Int) := by push_cast; rfl
  rw [hcast, Int.toNat_ofNat]

/-- While the loop counter stays below 31 the loop is defined, keeps the
length of the string, and turns exactly the positions it visits whose bit of
`m` is set into `'1'`. -/
theorem toBinaryStringLoop_below_31 (m : Nat) (r : Nat) :
    ∀ (j : Nat) (binary : List Char), j + r ≤ 31 →
      ∃ out, toBinaryStringLoop m r j binary = some out
        ∧ out.length = binary.length
        ∧ ∀ i, out[i]? =
            if j ≤ i ∧ i < j + r ∧ i < binary.length ∧ m.testBit i = true then some '1'
            else binary[i]? := by
  induction r with
  | zero =>
    intro j binary _
    refine ⟨binary, rfl, rfl, ?_⟩
    intro i
    rw [if_neg]
    omega
  | succ r ih =>
    intro j binary hj
    have hshift : shiftLeftOne j = some (2 ^ j) := by
      unfold shiftLeftOne
      rw [if_pos (by omega)]
    have hmask : (m &&& intToSizeT (2 ^ j) ≠ 0) ↔ m.testBit j = true := by
      rw [intToSizeT_two_pow j (by omega)]
      exact land_two_pow_ne_zero_iff m j
    by_cases hbit : m.testBit j = true
    · obtain ⟨out, hout, hlen, hget⟩ := ih (j + 1) (binary.set j '1') (by omega)
      refine ⟨out, ?_, ?_, ?_⟩
      · simp only [toBinaryStringLoop, hshift]
        rw [if_pos (hmask.mpr hbit)]
        exact hout
      · rw [hlen, List.length_set]
      · intro i
        rw [hget i, List.length_set, List.getElem?_set]
        by_cases hij : j = i
        · subst hij
          by_cases hlt : j < binary.length
          · rw [if_neg (by omega), if_pos rfl, if_pos hlt, if_pos ⟨le_refl _, by omega, hlt, hbit⟩]
          · rw [if_neg (by omega), if_pos rfl, if_neg hlt, if_neg (by omega),
              List.getElem?_eq_none (by omega)]
        · rw [if_neg hij]
          by_cases hcond : j + 1 ≤ i ∧ i < j + 1 + r ∧ i < binary.length ∧ m.testBit i = true
          · rw [if_pos hcond, if_pos ⟨by omega, by omega, hcond.2.2.1, hcond.2.2.2⟩]
          · rw [if_neg hcond, if_neg]
            intro hc
            exact hcond ⟨by omega, by omega, hc.2.2.1, hc.2.2.2⟩
    · obtain ⟨out, hout, hlen, hget⟩ := ih (j + 1) binary (by omega)
      refine ⟨out, ?_, hlen, ?_⟩
      · simp only [toBinaryStringLoop, hshift]
        rw [if_neg (fun h => hbit (hmask.mp h))]
        exact hout
      · intro i
        rw [hget i]
        by_cases hcond : j + 1 ≤ i ∧ i < j + 1 + r ∧ i < binary.length ∧ m.testBit i = true
        · rw [if_pos hcond, if_pos ⟨by omega, by omega, hcond.2.2.1, hcond.2.2.2⟩]
        · rw [if_neg hcond, if_neg]
          intro hc
          by_cases hij : j = i
          · subst hij; exact hbit hc.2.2.2
          · exact hcond ⟨by omega, by omega, hc.2.2.1, hc.2.2.2⟩

/-- For `nq ≤ 31` the function returns a string of length `nq` whose character
at every index `j < nq` is `'1'` exactly when bit `j` of `m` is set. -/
theorem toBinaryString_below_31 (m nq : Nat) (hnq : nq ≤ 31) :
    ∃ s, toBinaryString m nq = some s
      ∧ s.length = nq
      ∧ ∀ j, j < nq → s.data[j]? = some (if m.testBit j = true then '1' else '0') := by
  obtain ⟨out, hout, hlen, hget⟩ :=
    toBinaryStringLoop_below_31 m nq 0 (List.replicate nq '0') (by omega)
  rw [List.length_replicate] at hlen
  refine ⟨String.mk out, ?_, hlen, ?_⟩
  · unfold toBinaryString
    rw [hout]; rfl
  · intro j hj
    change out[j]? = _
    rw [hget j, List.length_replicate, List.getElem?_replicate]
    by_cases hbit : m.testBit j = true
    · rw [if_pos ⟨Nat.zero_le _, by omega, hj, hbit⟩, if_pos hbit]
    · rw [if_neg (fun hc => hbit hc.2.2.2), if_pos hj, if_neg hbit]

/-! ## Claims about `toBinaryString` and about the keys of the histogram -/

section LaterSimulatorClaims

variable {P E G D : Type}

/-- C12: at `m = 2^32` and `nq = 32` the code writes `'1'` at index 31 although
bit 31 of `m` is clear: the mask `1 << 31` is a negative `int`, which widens
to `0xFFFFFFFF80000000` before it is and-ed with `m`, so index 31 reports
whether any of the bits 31 to 63 is set. -/
theorem toBinaryString_index31_reads_high_bits :
    4294967296 < 2 ^ 64
    ∧ toBinaryString 4294967296 32 = some "00000000000000000000000000000001"
    ∧ (toBinaryString 4294967296 32).map (fun s => s.data[31]?) = some (some '1')
    ∧ Nat.testBit 4294967296 31 = false
    ∧ shiftLeftOne 31 = some (-2147483648)
    ∧ intToSizeT (-2147483648) = 18446744071562067968 := by
  decide

/-- C13: for every engine, simulator state and shot count (an `unsigned int`),
the histogram returned by `MeasureAllNonCollapsing(shots)` is the tally of the
`shots` draws: each entry's key was returned by some draw and its count is the
number of draws that returned it, hence between 1 and `shots`; every
bitstring drawn is a key; keys are pairwise distinct and there are at most
`shots` of them; and for `shots = 0` the histogram is empty. -/
theorem measureAllNonCollapsing_entries_are_draw_counts (eng : Engine P E G D)
    (sim : Simulator P E G D) (shots : Nat) (hshots : shots < 2 ^ 32) :
    (∀ k c, (k, c) ∈ (Simulator.MeasureAllNonCollapsing eng sim shots).1 →
        k ∈ Simulator.draws eng shots sim
        ∧ c = (Simulator.draws eng shots sim).count k
        ∧ 1 ≤ c ∧ c ≤ shots)
    ∧ (∀ k, k ∈ Simulator.draws eng shots sim →
        (k, (Simulator.draws eng shots sim).count k)
          ∈ (Simulator.MeasureAllNonCollapsing eng sim shots).1)
    ∧ ((Simulator.MeasureAllNonCollapsing eng sim shots).1.map Prod.fst).Nodup
    ∧ (Simulator.MeasureAllNonCollapsing eng sim shots).1.length ≤ shots
    ∧ (Simulator.MeasureAllNonCollapsing eng sim 0).1 = [] := by
  have ht := Simulator.measureLoop_tallies eng shots sim [] [] Histogram.tallies_nil
    (by simp only [List.length_nil]; omega)
  rw [List.nil_append] at ht
  change Histogram.Tallies (Simulator.MeasureAllNonCollapsing eng sim shots).1 _ at ht
  obtain ⟨hs, hget⟩ := ht
  have hentry : ∀ k c, (k, c) ∈ (Simulator.MeasureAllNonCollapsing eng sim shots).1 →
      k ∈ Simulator.draws eng shots sim
      ∧ c = (Simulator.draws eng shots sim).count k
      ∧ 1 ≤ c ∧ c ≤ shots := by
    intro k c hmem
    have hk := (Histogram.mem_iff_get _ k c hs).mp hmem
    rw [hget k] at hk
    by_cases hz : (Simulator.draws eng shots sim).count k = 0
    · rw [if_pos hz] at hk
      exact Option.noConfusion hk
    · rw [if_neg hz] at hk
      have hc : (Simulator.draws eng shots sim).count k = c := Option.some.inj hk
      have hle := List.count_le_length k (Simulator.draws eng shots sim)
      rw [Simulator.draws_length] at hle
      refine ⟨List.count_pos_iff.mp (Nat.pos_of_ne_zero hz), hc.symm, ?_, ?_⟩ <;> omega
  refine ⟨hentry, ?_, Histogram.keys_nodup_of_sorted _ hs, ?_, rfl⟩
  · intro k hk
    apply (Histogram.mem_iff_get _ k _ hs).mpr
    rw [hget k, if_neg (Nat.pos_iff_ne_zero.mp (List.count_pos_iff.mpr hk))]
  · have hlen := Histogram.length_le_total (Simulator.MeasureAllNonCollapsing eng sim shots).1
      (fun e he => (hentry e.1 e.2 he).2.2.1)
    have htotal : Histogram.total (Simulator.MeasureAllNonCollapsing eng sim shots).1
        = Histogram.total [] + shots :=
      Simulator.measureLoop_total eng shots sim [] (by rw [Histogram.total_nil]; omega)
    rw [htotal, Histogram.total_nil, Nat.zero_add] at hlen
    exact hlen

theorem measureAllNonCollapsing_entries_are_draw_counts_witness :
    (5 < 2 ^ 32)
    ∧ ((∀ k c, (k, c) ∈ (Simulator.MeasureAllNonCollapsing toyEngine
            (Simulator.seeded fixedOps toyEngine 7) 5).1 →
          k ∈ Simulator.draws toyEngine 5 (Simulator.seeded fixedOps toyEngine 7)
          ∧ c = (Simulator.draws toyEngine 5 (Simulator.seeded fixedOps toyEngine 7)).count k
          ∧ 1 ≤ c ∧ c ≤ 5)
      ∧ (∀ k, k ∈ Simulator.draws toyEngine 5 (Simulator.seeded fixedOps toyEngine 7) →
          (k, (Simulator.draws toyEngine 5 (Simulator.seeded fixedOps toyEngine 7)).count k)
            ∈ (Simulator.MeasureAllNonCollapsing toyEngine
                (Simulator.seeded fixedOps toyEngine 7) 5).1)
      ∧ ((Simulator.MeasureAllNonCollapsing toyEngine
            (Simulator.seeded fixedOps toyEngine 7) 5).1.map Prod.fst).Nodup
      ∧ (Simulator.MeasureAllNonCollapsing toyEngine
            (Simulator.seeded fixedOps toyEngine 7) 5).1.length ≤ 5
      ∧ (Simulator.MeasureAllNonCollapsing toyEngine
            (Simulator.seeded fixedOps toyEngine 7) 0).1 = []) :=
  ⟨by decide,
   measureAllNonCollapsing_entries_are_draw_counts toyEngine
    (Simulator.seeded fixedOps toyEngine 7) 5 (by decide)⟩

end LaterSimulatorClaims

end DDSim
